import Mathlib

/-!
Shallow embedding of `search/api.py` (edx-search): the query construction and
result post-processing pipeline.  Python dictionaries are modelled as
association lists with first-match lookup; inserting a binding conses it at
the head, so later writes shadow earlier ones (last-write-wins, as in Python).
The wall clock (`datetime.utcnow()`) is modelled as an input stream
`clock : Nat → Time`, consumed one sample per call site in program order.
External collaborators (SearchFilterGenerator, SearchEngine,
SearchResultProcessor, django settings) are inputs gathered in `Env`.
-/

/-- Timestamps; the code only constructs and passes them, never inspects them. -/
abbrev Time := Nat

/-- A user identity is opaque to this code. -/
abbrev User := String

/-- DateRange value type from `search.utils`: optional lower and upper bound. -/
structure DateRange where
  lower : Option Time
  upper : Option Time
deriving DecidableEq, Repr

/-- Values stored in field / filter / exclude dictionaries. -/
inductive Value where
  | str : String → Value
  | bool : Bool → Value
  | nat : Nat → Value
  | dateRange : DateRange → Value
deriving DecidableEq, Repr

/-- A Python dict modelled as an association list, first-match lookup. -/
abbrev Dict := List (String × Value)

/-- Dictionary lookup (`d[k]` / `d.get(k)`): first binding for the key. -/
def Dict.lookup : Dict → String → Option Value
  | [], _ => none
  | (k, v) :: rest, key => if key = k then some v else Dict.lookup rest key

/-- Dictionary write `d[k] = v`: the new binding shadows any earlier one. -/
def Dict.insert (d : Dict) (k : String) (v : Value) : Dict :=
  (k, v) :: d

/-- Dictionary key removal (`d.pop(k)` discards every binding of `k`). -/
def Dict.erase : Dict → String → Dict
  | [], _ => []
  | (k, v) :: rest, key =>
      if k = key then Dict.erase rest key else (k, v) :: Dict.erase rest key

/-- Python `d.update(o)`: every key of `o` overwrites the value in `d`. -/
def Dict.update (d o : Dict) : Dict :=
  o ++ d

/-- Python `str.split()`: split on whitespace runs, dropping empty tokens.
Auxiliary over the character list, `acc` holds the current token reversed. -/
def split_ws_aux : List Char → List Char → List String
  | [], acc => if acc = [] then [] else [String.mk acc.reverse]
  | c :: rest, acc =>
      if c.isWhitespace then
        if acc = [] then split_ws_aux rest []
        else String.mk acc.reverse :: split_ws_aux rest []
      else split_ws_aux rest (c :: acc)

/-- Python `s.split()` with no arguments. -/
def python_split (s : String) : List String :=
  split_ws_aux s.data []

/-- Aggregation configuration: facet field name to options dict. -/
abbrev Aggs := List (String × Dict)

/-- Django settings consulted by `search/api.py`; `none` means the attribute
is absent and `getattr` falls back to its default. -/
structure Settings where
  COURSE_DISCOVERY_FILTERS : Option (List String) := none
  COURSE_DISCOVERY_AGGREGATIONS : Option Aggs := none
  COURSEWARE_CONTENT_INDEX_NAME : Option String := none
  COURSEWARE_INFO_INDEX_NAME : Option String := none
  SEARCH_SKIP_ENROLLMENT_START_DATE_FILTERING : Bool := false

/-- Default filters supported (`DEFAULT_FILTER_FIELDS` in the source). -/
def DEFAULT_FILTER_FIELDS : List String := ["org", "modes", "language"]

/-- `course_discovery_filter_fields()`: settings override or the default. -/
def course_discovery_filter_fields (s : Settings) : List String :=
  Option.getD s.COURSE_DISCOVERY_FILTERS DEFAULT_FILTER_FIELDS

/-- `course_discovery_aggregations()`: settings override, or one entry with
empty options per filter field. -/
def course_discovery_aggregations (s : Settings) : Aggs :=
  Option.getD s.COURSE_DISCOVERY_AGGREGATIONS
    (List.map (fun f => (f, ([] : Dict))) (course_discovery_filter_fields s))

/-- Logical index name for content search (`COURSEWARE_CONTENT_INDEX_NAME`). -/
def content_index_name (s : Settings) : String :=
  Option.getD s.COURSEWARE_CONTENT_INDEX_NAME "courseware_content"

/-- Logical index name for discovery search (`COURSEWARE_INFO_INDEX_NAME`). -/
def info_index_name (s : Settings) : String :=
  Option.getD s.COURSEWARE_INFO_INDEX_NAME "course_info"

/-- Errors the embedded code can raise. `noSearchEngine` is
`NoSearchEngineError`; `attributeError` models Python's AttributeError from
calling `.split()` on a non-string status value. -/
inductive SearchError where
  | noSearchEngine
  | attributeError
deriving DecidableEq, Repr

/-- One search hit: an opaque `data` payload (None allowed) plus metadata. -/
structure Hit where
  data : Option Value
  meta : Dict := []
deriving DecidableEq, Repr

/-- The engine's result dictionary, plus the `access_denied_count` key that
`perform_search` writes into it. -/
structure SearchResults where
  results : List Hit
  total : Nat := 0
  aggs : Aggs := []
  access_denied_count : Nat := 0
deriving DecidableEq, Repr

/-- The full argument tuple `course_discovery_search` passes to
`searcher.search(...)`. -/
structure DiscoveryRequest where
  query_string : Option String
  size : Nat
  from_ : Nat
  field_dictionary : Dict
  filter_dictionary : Dict
  exclude_dictionary : Dict
  aggregation_terms : Aggs
deriving DecidableEq, Repr

/-- A resolved search engine instance: its two query operations. -/
structure Engine where
  search_string : String → Dict → Dict → Dict → Nat → Nat → SearchResults
  search : DiscoveryRequest → SearchResults

/-- The output triple of `SearchFilterGenerator.generate_field_filters`. -/
structure GenFilters where
  field_dictionary : Dict
  filter_dictionary : Dict
  exclude_dictionary : Dict

/-- External collaborators and configuration, as inputs to the core. -/
structure Env where
  settings : Settings
  generate_field_filters : Option User → Option String → GenFilters
  get_search_engine : String → Option Engine
  process_result : Option Value → String → Option User → Option Value

/-- Observable invocation events of `perform_search`, in program order. -/
inductive Event where
  | genFieldFilters
  | resolveEngine : String → Event
  | searchString
  | processResult
deriving DecidableEq, Repr

/-- One hit through `SearchResultProcessor.process_result`:
`result["data"] = process_result(result["data"], search_term, user)`. -/
def process_hit (proc : Option Value → String → Option User → Option Value)
    (search_term : String) (user : Option User) (r : Hit) : Hit :=
  { r with data := proc r.data search_term user }

/-- The post-processing step of `perform_search` (lines 76-80): map every
hit through the visibility filter, count the hits whose data became None,
and keep only the others. -/
def post_process (proc : Option Value → String → Option User → Option Value)
    (search_term : String) (user : Option User) (hits : List Hit) :
    List Hit × Nat :=
  let processed := List.map (process_hit proc search_term user) hits
  (List.filter (fun r => r.data.isSome) processed,
   List.length (List.filter (fun r => r.data.isNone) processed))

/-- `perform_search(search_term, user, size, from_, course_id)`, paired with
the trace of collaborator invocations it performed. -/
def perform_search (env : Env) (search_term : String) (user : Option User)
    (size : Nat) (from_ : Nat) (course_id : Option String) :
    Except SearchError SearchResults × List Event :=
  let gf := env.generate_field_filters user course_id
  let idx := content_index_name env.settings
  match env.get_search_engine idx with
  | none => (Except.error SearchError.noSearchEngine,
             [Event.genFieldFilters, Event.resolveEngine idx])
  | some searcher =>
      let raw := searcher.search_string search_term gf.field_dictionary
        gf.filter_dictionary gf.exclude_dictionary size from_
      let pp := post_process env.process_result search_term user raw.results
      (Except.ok { raw with results := pp.1, access_denied_count := pp.2 },
       [Event.genFieldFilters, Event.resolveEngine idx, Event.searchString]
         ++ List.map (fun _ => Event.processResult) raw.results)

/-- The allow-list `use_search_fields = ["org"]`. -/
def use_search_fields : List String := ["org"]

/-- Line 91: seed the working dictionary with the allow-listed subset of the
provider's fields. -/
def discovery_seeded_fields (env : Env) : Dict :=
  List.filter (fun kv => List.contains use_search_fields kv.1)
    (env.generate_field_filters none none).field_dictionary

/-- Lines 94-95: merge caller overrides into the seeded dictionary
(`use_field_dictionary.update(field_dictionary)`). -/
def discovery_merged_fields (env : Env) (field_dictionary : Option Dict) :
    Dict :=
  match field_dictionary with
  | none => discovery_seeded_fields env
  | some fd => Dict.update (discovery_seeded_fields env) fd

/-- Line 111: `status_value == "invitation_only" or 'invitation_only' in
status_value.split()`; `.split()` on a non-string raises AttributeError. -/
def invitation_condition (v : Value) : Except SearchError Bool :=
  if v = Value.str "invitation_only" then Except.ok true
  else
    match v with
    | Value.str s => Except.ok (decide ("invitation_only" ∈ python_split s))
    | _ => Except.error SearchError.attributeError

/-- Lines 102-108: the three mutually exclusive date-derivation branches,
each an exact-equality comparison of the popped status value. -/
def status_dates (u1 : Dict) (status_value : Value) (today : Time) : Dict :=
  if status_value = Value.str "ongoing" then
    Dict.insert
      (Dict.insert u1 "start" (Value.dateRange ⟨none, some today⟩))
      "end" (Value.dateRange ⟨some today, none⟩)
  else if status_value = Value.str "upcoming" then
    Dict.insert u1 "start" (Value.dateRange ⟨some today, none⟩)
  else if status_value = Value.str "finished" then
    Dict.insert u1 "end" (Value.dateRange ⟨none, some today⟩)
  else u1

/-- Lines 98-112: the `estatus` pop and status derivation, transforming the
working field dictionary and the exclude dictionary. -/
def apply_status (u : Dict) (ex : Dict) (today : Time) :
    Except SearchError (Dict × Dict) :=
  match Dict.lookup u "estatus" with
  | none => Except.ok (u, ex)
  | some status_value =>
      let u1 := Dict.erase u "estatus"
      let ex1 := Dict.insert ex "invitation_only" (Value.bool false)
      let u2 := status_dates u1 status_value today
      match invitation_condition status_value with
      | Except.error e => Except.error e
      | Except.ok b =>
          Except.ok
            (if b then Dict.insert u2 "invitation_only" (Value.bool true)
             else u2, ex1)

/-- The argument record handed to `searcher.search(...)` on line 123. -/
def mk_request (search_term : Option String) (size : Nat) (from_ : Nat)
    (u : Dict) (enrollment_end_now : Time) (ex : Dict) (s : Settings) :
    DiscoveryRequest :=
  { query_string := search_term
    size := size
    from_ := from_
    field_dictionary := u
    filter_dictionary :=
      [("enrollment_end", Value.dateRange ⟨some enrollment_end_now, none⟩)]
    exclude_dictionary := ex
    aggregation_terms := course_discovery_aggregations s }

/-- Lines 89-130 of `course_discovery_search` up to the engine call: the
request it passes to the engine, or the error raised while building it.
Clock samples: index 0 is `today` (line 97); when enrollment-start filtering
is enabled, index 1 is line 115 and index 2 is line 128, else index 1 is
line 128. -/
def course_discovery_request (env : Env) (search_term : Option String)
    (size : Nat) (from_ : Nat) (field_dictionary : Option Dict)
    (clock : Nat → Time) : Except SearchError DiscoveryRequest :=
  match apply_status (discovery_merged_fields env field_dictionary)
      (env.generate_field_filters none none).exclude_dictionary (clock 0) with
  | Except.error e => Except.error e
  | Except.ok (u1, ex1) =>
      if env.settings.SEARCH_SKIP_ENROLLMENT_START_DATE_FILTERING then
        Except.ok (mk_request search_term size from_ u1 (clock 1) ex1
          env.settings)
      else
        Except.ok (mk_request search_term size from_
          (Dict.insert u1 "enrollment_start"
            (Value.dateRange ⟨none, some (clock 1)⟩))
          (clock 2) ex1 env.settings)

/-- `course_discovery_search(search_term, size, from_, field_dictionary)`:
build the request, resolve the discovery engine, and run the query. -/
def course_discovery_search (env : Env) (search_term : Option String)
    (size : Nat) (from_ : Nat) (field_dictionary : Option Dict)
    (clock : Nat → Time) : Except SearchError SearchResults :=
  match course_discovery_request env search_term size from_ field_dictionary
      clock with
  | Except.error e => Except.error e
  | Except.ok req =>
      match env.get_search_engine (info_index_name env.settings) with
      | none => Except.error SearchError.noSearchEngine
      | some searcher => Except.ok (searcher.search req)

/-- A concrete engine whose queries return an empty result set. -/
def sampleEngine : Engine :=
  { search_string := fun _ _ _ _ _ _ => { results := [] }
    search := fun _ => { results := [] } }

/-- A concrete filter-provider output: an `org` default plus a field the
discovery allow-list drops. -/
def gen0 : GenFilters :=
  { field_dictionary := [("org", Value.str "edX"), ("modes", Value.str "audit")]
    filter_dictionary := []
    exclude_dictionary := [] }

/-- A concrete environment: default settings, engine always resolves,
visibility filter passes data through unchanged. -/
def env0 : Env :=
  { settings := {}
    generate_field_filters := fun _ _ => gen0
    get_search_engine := fun _ => some sampleEngine
    process_result := fun d _ _ => d }

/-- `env0` with enrollment-start filtering disabled. -/
def envSkip : Env :=
  { env0 with settings :=
      { SEARCH_SKIP_ENROLLMENT_START_DATE_FILTERING := true } }

/-- `env0` with no search engine resolvable. -/
def envNoEngine : Env :=
  { env0 with get_search_engine := fun _ => none }

/-- The identity clock: sample `n` is the timestamp `n`. -/
def clock0 : Nat → Time := fun n => n

/-- A clock agreeing with `clock0` on the first three samples only. -/
def clockB : Nat → Time := fun n => if n < 3 then n else 99

/-- Caller overrides carrying the whitespace-joined status of claim C1. -/
def fdC1 : Dict := [("estatus", Value.str "ongoing invitation_only")]

/-- Caller overrides smuggling an `enrollment_start` key past the skip flag. -/
def fdC3 : Dict := [("enrollment_start", Value.str "2030-01-01")]

/-- Caller overrides with `estatus=ongoing` plus attempts to pre-empt the
status-derived keys. -/
def fdC5 : Dict :=
  [("estatus", Value.str "ongoing"), ("start", Value.str "overridden"),
   ("end", Value.str "overridden"), ("org", Value.str "MITx")]

/-- Caller overrides with an unrecognized status token. -/
def fdC6 : Dict := [("estatus", Value.str "archived")]

/-- Caller overrides with `estatus=ongoing` only. -/
def fdC7 : Dict := [("estatus", Value.str "ongoing")]

/-- A concrete hit list: one visible hit followed by one with a None payload. -/
def hitsC8 : List Hit := [{ data := some (Value.str "lesson") }, { data := none }]

/-- A single-hit list whose payload the denying filter will drop. -/
def hitsC9 : List Hit := [{ data := some (Value.str "secret") }]

/-- A visibility filter that denies everything. -/
def denyAll : Option Value → String → Option User → Option Value :=
  fun _ _ _ => none

/-! Helper lemmas about the dictionary model. -/

theorem Dict.lookup_insert_self (d : Dict) (k : String) (v : Value) :
    Dict.lookup (Dict.insert d k v) k = some v := by
  simp [Dict.insert, Dict.lookup]

theorem Dict.lookup_insert_ne (d : Dict) {k k' : String} (v : Value)
    (h : k' ≠ k) : Dict.lookup (Dict.insert d k v) k' = Dict.lookup d k' := by
  simp [Dict.insert, Dict.lookup, h]

theorem Dict.lookup_erase_self (d : Dict) (k : String) :
    Dict.lookup (Dict.erase d k) k = none := by
  induction d with
  | nil => rfl
  | cons a rest ih =>
      by_cases h : a.1 = k
      · simp [Dict.erase, h, ih]
      · simp [Dict.erase, h, Dict.lookup, ih, Ne.symm h]

theorem Dict.lookup_erase_ne (d : Dict) {k k' : String} (h : k' ≠ k) :
    Dict.lookup (Dict.erase d k) k' = Dict.lookup d k' := by
  induction d with
  | nil => rfl
  | cons a rest ih =>
      by_cases ha : a.1 = k
      · simp [Dict.erase, ha, Dict.lookup, ih, h]
      · by_cases hk : k' = a.1
        · simp [Dict.erase, ha, Dict.lookup, hk]
        · simp [Dict.erase, ha, Dict.lookup, hk, ih]

theorem Dict.lookup_update_some (d o : Dict) (k : String) (v : Value)
    (h : Dict.lookup o k = some v) :
    Dict.lookup (Dict.update d o) k = some v := by
  induction o with
  | nil => simp [Dict.lookup] at h
  | cons a rest ih =>
      by_cases hk : k = a.1
      · simp [Dict.lookup, hk] at h
        simp [Dict.update, Dict.lookup, hk, h]
      · simp [Dict.lookup, hk] at h
        simpa [Dict.update, Dict.lookup, hk] using ih h

theorem Dict.lookup_update_none (d o : Dict) (k : String)
    (h : Dict.lookup o k = none) :
    Dict.lookup (Dict.update d o) k = Dict.lookup d k := by
  induction o with
  | nil => simp [Dict.update]
  | cons a rest ih =>
      by_cases hk : k = a.1
      · simp [Dict.lookup, hk] at h
      · simp [Dict.lookup, hk] at h
        simpa [Dict.update, Dict.lookup, hk] using ih h

/-! Helper lemmas about hit-list filtering. -/

theorem length_filter_data_split (hits : List Hit) :
    (List.filter (fun r => r.data.isSome) hits).length +
      (List.filter (fun r => r.data.isNone) hits).length = hits.length := by
  induction hits with
  | nil => rfl
  | cons a l ih =>
      cases h : a.data <;> simp [List.filter_cons, h] <;> omega

theorem filter_isSome_map_process (proc : Option Value → String → Option User → Option Value)
    (search_term : String) (user : Option User) (hits : List Hit) :
    List.filter (fun r => r.data.isSome)
        (List.map (process_hit proc search_term user) hits) =
      List.map (process_hit proc search_term user)
        (List.filter (fun r => (proc r.data search_term user).isSome) hits) := by
  induction hits with
  | nil => rfl
  | cons a l ih =>
      by_cases h : (proc a.data search_term user).isSome <;>
        simp [List.filter_cons, process_hit, h, ih]

theorem filter_length_eraseIdx (p : Hit → Bool) :
    ∀ (l : List Hit) (i : Nat) (h : i < l.length),
    (List.filter p l).length =
      (List.filter p (List.eraseIdx l i)).length +
        (if p (l.get ⟨i, h⟩) then 1 else 0)
  | [], i, h => by simp at h
  | a :: l, 0, _ => by
      by_cases hp : p a <;> simp [List.filter_cons, hp, List.eraseIdx]
  | a :: l, i + 1, h => by
      have ih := filter_length_eraseIdx p l i (by simpa using h)
      by_cases hp : p a <;>
        simp [List.filter_cons, hp, List.eraseIdx, List.get, ih] <;> omega

/-! Helper lemmas about status derivation. -/

theorem invitation_condition_of_token (s : String)
    (h : s = "invitation_only" ∨ "invitation_only" ∈ python_split s) :
    invitation_condition (Value.str s) = Except.ok true := by
  by_cases hs : s = "invitation_only"
  · subst hs; rfl
  · rcases h with h | h
    · exact absurd h hs
    · simp [invitation_condition, hs, h]

theorem invitation_condition_of_no_token (s : String)
    (h : ¬ "invitation_only" ∈ python_split s) :
    invitation_condition (Value.str s) = Except.ok false := by
  by_cases hs : s = "invitation_only"
  · subst hs; exact absurd (by decide) h
  · simp [invitation_condition, hs, h]

theorem apply_status_of_absent (u ex : Dict) (t : Time)
    (h : Dict.lookup u "estatus" = none) :
    apply_status u ex t = Except.ok (u, ex) := by
  simp [apply_status, h]

theorem apply_status_of_present (u ex : Dict) (t : Time) (v : Value) (b : Bool)
    (h : Dict.lookup u "estatus" = some v)
    (hb : invitation_condition v = Except.ok b) :
    apply_status u ex t = Except.ok
      ((if b then
          Dict.insert (status_dates (Dict.erase u "estatus") v t)
            "invitation_only" (Value.bool true)
        else status_dates (Dict.erase u "estatus") v t),
       Dict.insert ex "invitation_only" (Value.bool false)) := by
  simp [apply_status, h, hb]

theorem status_dates_ongoing (u1 : Dict) (t : Time) :
    status_dates u1 (Value.str "ongoing") t =
      Dict.insert
        (Dict.insert u1 "start" (Value.dateRange ⟨none, some t⟩))
        "end" (Value.dateRange ⟨some t, none⟩) := by
  simp [status_dates]

theorem status_dates_other (u1 : Dict) (v : Value) (t : Time)
    (h1 : v ≠ Value.str "ongoing") (h2 : v ≠ Value.str "upcoming")
    (h3 : v ≠ Value.str "finished") :
    status_dates u1 v t = u1 := by
  simp [status_dates, h1, h2, h3]

theorem course_discovery_request_of_status (env : Env)
    (search_term : Option String) (size from_ : Nat)
    (field_dictionary : Option Dict) (clock : Nat → Time) (u1 ex1 : Dict)
    (h : apply_status (discovery_merged_fields env field_dictionary)
        (env.generate_field_filters none none).exclude_dictionary (clock 0) =
        Except.ok (u1, ex1)) :
    course_discovery_request env search_term size from_ field_dictionary
        clock =
      (if env.settings.SEARCH_SKIP_ENROLLMENT_START_DATE_FILTERING then
        Except.ok (mk_request search_term size from_ u1 (clock 1) ex1
          env.settings)
      else
        Except.ok (mk_request search_term size from_
          (Dict.insert u1 "enrollment_start"
            (Value.dateRange ⟨none, some (clock 1)⟩))
          (clock 2) ex1 env.settings)) := by
  simp [course_discovery_request, h]

/-! Claim theorems for the content-search path. -/

/-- C2: for every input hit list given to `perform_search`'s post-processing
step, the number of returned visible hits plus the reported
`access_denied_count` equals the length of the input list, and the visible
hits are exactly the processed versions of the kept subset of the input
hits, in input (ranking) order. -/
theorem post_process_partition
    (proc : Option Value → String → Option User → Option Value)
    (search_term : String) (user : Option User) (hits : List Hit) :
    (post_process proc search_term user hits).1.length +
        (post_process proc search_term user hits).2 = hits.length ∧
    (post_process proc search_term user hits).1 =
      List.map (process_hit proc search_term user)
        (List.filter (fun r => (proc r.data search_term user).isSome) hits) := by
  refine ⟨?_, ?_⟩
  · have h := length_filter_data_split
      (List.map (process_hit proc search_term user) hits)
    simpa [post_process] using h
  · simpa [post_process] using
      filter_isSome_map_process proc search_term user hits

/-- C4: when the content-search index name resolves to no engine,
`perform_search` returns the distinguishable `noSearchEngine` error; the
trace shows `generate_field_filters` was invoked but neither the engine's
term-search operation (the only network call) nor the result visibility
filter. -/
theorem perform_search_no_engine (env : Env) (search_term : String)
    (user : Option User) (size from_ : Nat) (course_id : Option String)
    (h : env.get_search_engine (content_index_name env.settings) = none) :
    (perform_search env search_term user size from_ course_id).1 =
      Except.error SearchError.noSearchEngine ∧
    Event.genFieldFilters ∈
      (perform_search env search_term user size from_ course_id).2 ∧
    Event.searchString ∉
      (perform_search env search_term user size from_ course_id).2 ∧
    Event.processResult ∉
      (perform_search env search_term user size from_ course_id).2 := by
  simp [perform_search, h]

/-- C4 witness: a concrete environment with no resolvable engine. -/
theorem perform_search_no_engine_witness :
    (perform_search envNoEngine "math" none 10 0 none).1 =
      Except.error SearchError.noSearchEngine ∧
    Event.genFieldFilters ∈ (perform_search envNoEngine "math" none 10 0 none).2 ∧
    Event.searchString ∉ (perform_search envNoEngine "math" none 10 0 none).2 ∧
    Event.processResult ∉ (perform_search envNoEngine "math" none 10 0 none).2 :=
  perform_search_no_engine envNoEngine "math" none 10 0 none rfl

/-- C8: a hit whose visibility filter returns its data payload unchanged
(and non-None) survives post-processing with an identical payload at its
original position, and contributes zero to `access_denied_count`. -/
theorem post_process_roundtrip_hit
    (proc : Option Value → String → Option User → Option Value)
    (search_term : String) (user : Option User) (hits : List Hit) (i : Nat)
    (hi : i < hits.length)
    (hunch : proc (hits.get ⟨i, hi⟩).data search_term user =
      (hits.get ⟨i, hi⟩).data)
    (hvis : (hits.get ⟨i, hi⟩).data ≠ none) :
    (List.map (process_hit proc search_term user) hits).get
        ⟨i, by simpa using hi⟩ = hits.get ⟨i, hi⟩ ∧
    hits.get ⟨i, hi⟩ ∈ (post_process proc search_term user hits).1 ∧
    (post_process proc search_term user hits).2 =
      (List.filter (fun r => r.data.isNone)
        (List.eraseIdx
          (List.map (process_hit proc search_term user) hits) i)).length := by
  have hget : (List.map (process_hit proc search_term user) hits).get
      ⟨i, by simpa using hi⟩ = hits.get ⟨i, hi⟩ := by
    rw [List.get_map]
    cases hh : hits.get ⟨i, hi⟩ with
    | mk d m =>
        simp only [hh] at hunch
        simp [process_hit, hunch]
  refine ⟨hget, ?_, ?_⟩
  · have hmem : (List.map (process_hit proc search_term user) hits).get
        ⟨i, by simpa using hi⟩ ∈
        List.map (process_hit proc search_term user) hits :=
      List.get_mem _ i (by simpa using hi)
    rw [hget] at hmem
    have hsome : (hits.get ⟨i, hi⟩).data.isSome := by
      cases hd : (hits.get ⟨i, hi⟩).data with
      | none => exact absurd hd hvis
      | some v => rfl
    simp only [post_process]
    exact List.mem_filter.mpr ⟨hmem, hsome⟩
  · have hlen : i < (List.map (process_hit proc search_term user) hits).length := by
      simpa using hi
    have h := filter_length_eraseIdx (fun r => r.data.isNone)
      (List.map (process_hit proc search_term user) hits) i hlen
    rw [hget] at h
    have hfalse : (hits.get ⟨i, hi⟩).data.isNone = false := by
      cases hd : (hits.get ⟨i, hi⟩).data with
      | none => exact absurd hd hvis
      | some v => rfl
    rw [hfalse] at h
    simpa [post_process] using h

/-- C8 witness: the pass-through filter keeps the first hit of `hitsC8`. -/
theorem post_process_roundtrip_hit_witness :
    hitsC8.get ⟨0, by decide⟩ ∈
      (post_process (fun d _ _ => d) "math" none hitsC8).1 :=
  (post_process_roundtrip_hit (fun d _ _ => d) "math" none hitsC8 0
    (by decide) rfl (by decide)).2.1

/-- C9: the not-visible sentinel is `None` on the replaced data field: any
hit whose filter call returns `None` — even as a legitimate payload — is
dropped (no returned hit carries a `None` payload) and adds one to
`access_denied_count`. -/
theorem post_process_none_sentinel
    (proc : Option Value → String → Option User → Option Value)
    (search_term : String) (user : Option User) (hits : List Hit) (i : Nat)
    (hi : i < hits.length)
    (hdrop : proc (hits.get ⟨i, hi⟩).data search_term user = none) :
    (∀ r ∈ (post_process proc search_term user hits).1, r.data ≠ none) ∧
    (post_process proc search_term user hits).2 =
      (List.filter (fun r => r.data.isNone)
        (List.eraseIdx
          (List.map (process_hit proc search_term user) hits) i)).length
        + 1 := by
  refine ⟨?_, ?_⟩
  · intro r hr
    simp only [post_process] at hr
    have := (List.mem_filter.mp hr).2
    intro hc
    rw [hc] at this
    simp at this
  · have hlen : i < (List.map (process_hit proc search_term user) hits).length := by
      simpa using hi
    have h := filter_length_eraseIdx (fun r => r.data.isNone)
      (List.map (process_hit proc search_term user) hits) i hlen
    have hget : (List.map (process_hit proc search_term user) hits).get
        ⟨i, hlen⟩ = process_hit proc search_term user (hits.get ⟨i, hi⟩) :=
      List.get_map _
    have htrue : ((List.map (process_hit proc search_term user) hits).get
        ⟨i, hlen⟩).data.isNone = true := by
      rw [hget]
      show (proc (hits.get ⟨i, hi⟩).data search_term user).isNone = true
      rw [hdrop]
      rfl
    rw [htrue] at h
    simpa [post_process] using h

/-- C9 witness: a filter returning `None` drops the only hit and counts it. -/
theorem post_process_none_sentinel_witness :
    (post_process denyAll "math" none hitsC9).2 =
      (List.filter (fun r => r.data.isNone)
        (List.eraseIdx (List.map (process_hit denyAll "math" none) hitsC9)
          0)).length + 1 :=
  (post_process_none_sentinel denyAll "math" none hitsC9 0 (by decide)
    rfl).2

/-! Claim theorems for the course-discovery path. -/

/-- C7: whenever the merged field dictionary maps `estatus` to exactly
`"ongoing"`, the field dictionary passed to the engine contains both
`start = DateRange(None, now)` and `end = DateRange(now, None)`, and the
exclude dictionary maps `invitation_only` to `false`. -/
theorem course_discovery_ongoing_constraints (env : Env)
    (search_term : Option String) (size from_ : Nat)
    (field_dictionary : Option Dict) (clock : Nat → Time)
    (req : DiscoveryRequest)
    (hs : Dict.lookup (discovery_merged_fields env field_dictionary)
      "estatus" = some (Value.str "ongoing"))
    (hok : course_discovery_request env search_term size from_
      field_dictionary clock = Except.ok req) :
    Dict.lookup req.field_dictionary "start" =
      some (Value.dateRange ⟨none, some (clock 0)⟩) ∧
    Dict.lookup req.field_dictionary "end" =
      some (Value.dateRange ⟨some (clock 0), none⟩) ∧
    Dict.lookup req.exclude_dictionary "invitation_only" =
      some (Value.bool false) := by
  have hinv : invitation_condition (Value.str "ongoing") = Except.ok false :=
    invitation_condition_of_no_token "ongoing" (by decide)
  have happ := apply_status_of_present
    (discovery_merged_fields env field_dictionary)
    (env.generate_field_filters none none).exclude_dictionary (clock 0)
    (Value.str "ongoing") false hs hinv
  simp only [Bool.false_eq_true, if_false, status_dates_ongoing] at happ
  rw [course_discovery_request_of_status env search_term size from_
    field_dictionary clock _ _ happ] at hok
  by_cases hsk : env.settings.SEARCH_SKIP_ENROLLMENT_START_DATE_FILTERING
  · rw [if_pos hsk] at hok
    injection hok with hok
    subst hok
    refine ⟨?_, ?_, ?_⟩ <;>
      simp [mk_request, Dict.lookup_insert_self, Dict.lookup_insert_ne]
  · rw [if_neg hsk] at hok
    injection hok with hok
    subst hok
    refine ⟨?_, ?_, ?_⟩ <;>
      simp [mk_request, Dict.lookup_insert_self, Dict.lookup_insert_ne]

/-- C7 witness: concrete call with `estatus=ongoing`. -/
theorem course_discovery_ongoing_constraints_witness :
    Dict.lookup
      ((course_discovery_request env0 (some "math") 20 0 (some fdC7)
          clock0).toOption.getD (mk_request none 0 0 [] 0 [] {})).field_dictionary
      "start" = some (Value.dateRange ⟨none, some (clock0 0)⟩) := by
  have h := course_discovery_ongoing_constraints env0 (some "math") 20 0
    (some fdC7) clock0
    ((course_discovery_request env0 (some "math") 20 0 (some fdC7)
        clock0).toOption.getD (mk_request none 0 0 [] 0 [] {}))
    (by decide) (by rfl)
  exact h.1

/-- C6: an `estatus` whose string value is none of `ongoing`, `upcoming`,
`finished` and whose whitespace tokens do not include `invitation_only`
adds no `start`, `end` or `invitation_only` field constraint, drops the
popped `estatus` key, raises no error, and still sets the baseline
`exclude.invitation_only = false`. -/
theorem course_discovery_unrecognized_status (env : Env)
    (search_term : Option String) (size from_ : Nat)
    (field_dictionary : Option Dict) (clock : Nat → Time) (s : String)
    (eng : Engine)
    (hs : Dict.lookup (discovery_merged_fields env field_dictionary)
      "estatus" = some (Value.str s))
    (h1 : s ≠ "ongoing") (h2 : s ≠ "upcoming") (h3 : s ≠ "finished")
    (h4 : ¬ "invitation_only" ∈ python_split s)
    (heng : env.get_search_engine (info_index_name env.settings) = some eng) :
    ∃ req, course_discovery_request env search_term size from_
        field_dictionary clock = Except.ok req ∧
      course_discovery_search env search_term size from_ field_dictionary
        clock = Except.ok (eng.search req) ∧
      Dict.lookup req.field_dictionary "estatus" = none ∧
      Dict.lookup req.field_dictionary "start" =
        Dict.lookup (discovery_merged_fields env field_dictionary) "start" ∧
      Dict.lookup req.field_dictionary "end" =
        Dict.lookup (discovery_merged_fields env field_dictionary) "end" ∧
      Dict.lookup req.field_dictionary "invitation_only" =
        Dict.lookup (discovery_merged_fields env field_dictionary)
          "invitation_only" ∧
      Dict.lookup req.exclude_dictionary "invitation_only" =
        some (Value.bool false) := by
  have hinv := invitation_condition_of_no_token s h4
  have hvne1 : Value.str s ≠ Value.str "ongoing" := by simpa using h1
  have hvne2 : Value.str s ≠ Value.str "upcoming" := by simpa using h2
  have hvne3 : Value.str s ≠ Value.str "finished" := by simpa using h3
  have happ := apply_status_of_present
    (discovery_merged_fields env field_dictionary)
    (env.generate_field_filters none none).exclude_dictionary (clock 0)
    (Value.str s) false hs hinv
  simp only [Bool.false_eq_true, if_false] at happ
  rw [status_dates_other _ _ _ hvne1 hvne2 hvne3] at happ
  have hreq := course_discovery_request_of_status env search_term size from_
    field_dictionary clock _ _ happ
  by_cases hsk : env.settings.SEARCH_SKIP_ENROLLMENT_START_DATE_FILTERING
  · rw [if_pos hsk] at hreq
    refine ⟨_, hreq, ?_, ?_, ?_, ?_, ?_, ?_⟩
    · simp [course_discovery_search, hreq, heng]
    · simp [mk_request, Dict.lookup_erase_self]
    · simp [mk_request, Dict.lookup_erase_ne]
    · simp [mk_request, Dict.lookup_erase_ne]
    · simp [mk_request, Dict.lookup_erase_ne]
    · simp [mk_request, Dict.lookup_insert_self]
  · rw [if_neg hsk] at hreq
    refine ⟨_, hreq, ?_, ?_, ?_, ?_, ?_, ?_⟩
    · simp [course_discovery_search, hreq, heng]
    · simp [mk_request, Dict.lookup_insert_ne, Dict.lookup_erase_self]
    · simp [mk_request, Dict.lookup_insert_ne, Dict.lookup_erase_ne]
    · simp [mk_request, Dict.lookup_insert_ne, Dict.lookup_erase_ne]
    · simp [mk_request, Dict.lookup_insert_ne, Dict.lookup_erase_ne]
    · simp [mk_request, Dict.lookup_insert_self]

/-- C6 witness: the unrecognized status `archived` at a concrete call. -/
theorem course_discovery_unrecognized_status_witness :
    ∃ req, course_discovery_request env0 (some "math") 20 0 (some fdC6)
        clock0 = Except.ok req ∧
      course_discovery_search env0 (some "math") 20 0 (some fdC6) clock0 =
        Except.ok (sampleEngine.search req) ∧
      Dict.lookup req.field_dictionary "estatus" = none ∧
      Dict.lookup req.field_dictionary "start" =
        Dict.lookup (discovery_merged_fields env0 (some fdC6)) "start" ∧
      Dict.lookup req.field_dictionary "end" =
        Dict.lookup (discovery_merged_fields env0 (some fdC6)) "end" ∧
      Dict.lookup req.field_dictionary "invitation_only" =
        Dict.lookup (discovery_merged_fields env0 (some fdC6))
          "invitation_only" ∧
      Dict.lookup req.exclude_dictionary "invitation_only" =
        some (Value.bool false) :=
  course_discovery_unrecognized_status env0 (some "math") 20 0 (some fdC6)
    clock0 "archived" sampleEngine (by decide) (by decide) (by decide)
    (by decide) (by decide) rfl

theorem status_dates_upcoming (u1 : Dict) (t : Time) :
    status_dates u1 (Value.str "upcoming") t =
      Dict.insert u1 "start" (Value.dateRange ⟨some t, none⟩) := by
  simp [status_dates]

theorem status_dates_finished (u1 : Dict) (t : Time) :
    status_dates u1 (Value.str "finished") t =
      Dict.insert u1 "end" (Value.dateRange ⟨none, some t⟩) := by
  simp [status_dates]

theorem request_after_status (env : Env) (search_term : Option String)
    (size from_ : Nat) (field_dictionary : Option Dict) (clock : Nat → Time)
    (u1 ex1 : Dict) (req : DiscoveryRequest)
    (happ : apply_status (discovery_merged_fields env field_dictionary)
      (env.generate_field_filters none none).exclude_dictionary (clock 0) =
      Except.ok (u1, ex1))
    (hok : course_discovery_request env search_term size from_
      field_dictionary clock = Except.ok req) :
    req.exclude_dictionary = ex1 ∧
    ∀ k, k ≠ "enrollment_start" →
      Dict.lookup req.field_dictionary k = Dict.lookup u1 k := by
  rw [course_discovery_request_of_status env search_term size from_
    field_dictionary clock _ _ happ] at hok
  by_cases hsk : env.settings.SEARCH_SKIP_ENROLLMENT_START_DATE_FILTERING
  · rw [if_pos hsk] at hok
    injection hok with hok
    subst hok
    exact ⟨rfl, fun k _ => rfl⟩
  · rw [if_neg hsk] at hok
    injection hok with hok
    subst hok
    exact ⟨rfl, fun k hk => Dict.lookup_insert_ne _ _ hk⟩

/-- C5: the caller's value wins over the seeded default at every overlapping
key, and the status-derived keys `start`, `end`, `invitation_only` are
written strictly after the override merge, so caller overrides of those
keys cannot pre-empt status derivation when `estatus` is present. -/
theorem course_discovery_override_precedence (env : Env)
    (search_term : Option String) (size from_ : Nat) (fd : Dict)
    (clock : Nat → Time) (req : DiscoveryRequest) (k : String) (v : Value) :
    (Dict.lookup fd k = some v →
      Dict.lookup (discovery_seeded_fields env) k ≠ none →
      Dict.lookup (discovery_merged_fields env (some fd)) k = some v) ∧
    (course_discovery_request env search_term size from_ (some fd) clock =
        Except.ok req →
      (Dict.lookup (discovery_merged_fields env (some fd)) "estatus" =
          some (Value.str "ongoing") →
        Dict.lookup req.field_dictionary "start" =
          some (Value.dateRange ⟨none, some (clock 0)⟩) ∧
        Dict.lookup req.field_dictionary "end" =
          some (Value.dateRange ⟨some (clock 0), none⟩)) ∧
      (Dict.lookup (discovery_merged_fields env (some fd)) "estatus" =
          some (Value.str "upcoming") →
        Dict.lookup req.field_dictionary "start" =
          some (Value.dateRange ⟨some (clock 0), none⟩)) ∧
      (Dict.lookup (discovery_merged_fields env (some fd)) "estatus" =
          some (Value.str "finished") →
        Dict.lookup req.field_dictionary "end" =
          some (Value.dateRange ⟨none, some (clock 0)⟩)) ∧
      (∀ s, Dict.lookup (discovery_merged_fields env (some fd)) "estatus" =
          some (Value.str s) →
        s = "invitation_only" ∨ "invitation_only" ∈ python_split s →
        Dict.lookup req.field_dictionary "invitation_only" =
          some (Value.bool true))) := by
  constructor
  · intro hfd _
    exact Dict.lookup_update_some _ _ _ _ hfd
  · intro hok
    refine ⟨?_, ?_, ?_, ?_⟩
    · intro hs
      have hinv := invitation_condition_of_no_token "ongoing" (by decide)
      have happ := apply_status_of_present
        (discovery_merged_fields env (some fd))
        (env.generate_field_filters none none).exclude_dictionary (clock 0)
        (Value.str "ongoing") false hs hinv
      simp only [Bool.false_eq_true, if_false, status_dates_ongoing] at happ
      have hr := request_after_status env search_term size from_ (some fd)
        clock _ _ req happ hok
      constructor
      · rw [hr.2 "start" (by decide)]
        simp [Dict.lookup_insert_self, Dict.lookup_insert_ne]
      · rw [hr.2 "end" (by decide)]
        simp [Dict.lookup_insert_self]
    · intro hs
      have hinv := invitation_condition_of_no_token "upcoming" (by decide)
      have happ := apply_status_of_present
        (discovery_merged_fields env (some fd))
        (env.generate_field_filters none none).exclude_dictionary (clock 0)
        (Value.str "upcoming") false hs hinv
      simp only [Bool.false_eq_true, if_false, status_dates_upcoming] at happ
      have hr := request_after_status env search_term size from_ (some fd)
        clock _ _ req happ hok
      rw [hr.2 "start" (by decide)]
      simp [Dict.lookup_insert_self]
    · intro hs
      have hinv := invitation_condition_of_no_token "finished" (by decide)
      have happ := apply_status_of_present
        (discovery_merged_fields env (some fd))
        (env.generate_field_filters none none).exclude_dictionary (clock 0)
        (Value.str "finished") false hs hinv
      simp only [Bool.false_eq_true, if_false, status_dates_finished] at happ
      have hr := request_after_status env search_term size from_ (some fd)
        clock _ _ req happ hok
      rw [hr.2 "end" (by decide)]
      simp [Dict.lookup_insert_self]
    · intro s hs hcond
      have hinv := invitation_condition_of_token s hcond
      have happ := apply_status_of_present
        (discovery_merged_fields env (some fd))
        (env.generate_field_filters none none).exclude_dictionary (clock 0)
        (Value.str s) true hs hinv
      simp only [if_true] at happ
      have hr := request_after_status env search_term size from_ (some fd)
        clock _ _ req happ hok
      rw [hr.2 "invitation_only" (by decide)]
      exact Dict.lookup_insert_self _ _ _

/-- C5 witness: `org` override wins over the seeded default, and the
`start` override is pre-empted by `estatus=ongoing` derivation. -/
theorem course_discovery_override_precedence_witness :
    Dict.lookup (discovery_merged_fields env0 (some fdC5)) "org" =
      some (Value.str "MITx") ∧
    Dict.lookup
      ((course_discovery_request env0 (some "math") 20 0 (some fdC5)
          clock0).toOption.getD (mk_request none 0 0 [] 0 [] {})).field_dictionary
      "start" = some (Value.dateRange ⟨none, some (clock0 0)⟩) := by
  have h := course_discovery_override_precedence env0 (some "math") 20 0 fdC5
    clock0
    ((course_discovery_request env0 (some "math") 20 0 (some fdC5)
        clock0).toOption.getD (mk_request none 0 0 [] 0 [] {}))
    "org" (Value.str "MITx")
  exact ⟨h.1 (by decide) (by decide), ((h.2 (by rfl)).1 (by decide)).1⟩

theorem status_dates_lookup_ne (u1 : Dict) (v : Value) (t : Time)
    (k : String) (h1 : k ≠ "start") (h2 : k ≠ "end") :
    Dict.lookup (status_dates u1 v t) k = Dict.lookup u1 k := by
  unfold status_dates
  split_ifs <;> simp [Dict.lookup_insert_ne, h1, h2]

theorem apply_status_preserves (u ex : Dict) (t : Time) (u1 ex1 : Dict)
    (k : String) (hk1 : k ≠ "estatus") (hk2 : k ≠ "start") (hk3 : k ≠ "end")
    (hk4 : k ≠ "invitation_only")
    (happ : apply_status u ex t = Except.ok (u1, ex1)) :
    Dict.lookup u1 k = Dict.lookup u k := by
  cases hl : Dict.lookup u "estatus" with
  | none =>
      simp only [apply_status, hl] at happ
      simp only [Except.ok.injEq, Prod.mk.injEq] at happ
      rw [← happ.1]
  | some v =>
      simp only [apply_status, hl] at happ
      cases hic : invitation_condition v with
      | error e => simp [hic] at happ
      | ok b =>
          simp only [hic] at happ
          simp only [Except.ok.injEq, Prod.mk.injEq] at happ
          obtain ⟨h1, _⟩ := happ
          subst h1
          cases b <;>
            simp [Dict.lookup_insert_ne, status_dates_lookup_ne,
              Dict.lookup_erase_ne, hk1, hk2, hk3, hk4]

/-- C1 counterexample: with the merged `estatus` value
`"ongoing invitation_only"`, `invitation_only` is set but the `start` and
`end` ongoing constraints are NOT in the engine's field dictionary, so the
claim's simultaneous conjunction fails. -/
theorem course_discovery_combined_status_cex :
    Dict.lookup (discovery_merged_fields env0 (some fdC1)) "estatus" =
      some (Value.str "ongoing invitation_only") ∧
    ∃ req, course_discovery_request env0 (some "math") 20 0 (some fdC1)
        clock0 = Except.ok req ∧
      Dict.lookup req.field_dictionary "invitation_only" =
        some (Value.bool true) ∧
      Dict.lookup req.field_dictionary "start" = none ∧
      Dict.lookup req.field_dictionary "end" = none := by
  refine ⟨by decide,
    (course_discovery_request env0 (some "math") 20 0 (some fdC1)
      clock0).toOption.getD (mk_request none 0 0 [] 0 [] {}),
    by rfl, by decide, by decide, by decide⟩

/-- C1 (amended): a merged `estatus` of `"ongoing invitation_only"` sets
`invitation_only = true`, but does NOT add the ongoing date constraints:
the `start` and `end` entries passed to the engine are exactly those of the
merged dictionary, because the ongoing branch tests exact string
equality. -/
theorem course_discovery_combined_status (env : Env)
    (search_term : Option String) (size from_ : Nat)
    (field_dictionary : Option Dict) (clock : Nat → Time)
    (req : DiscoveryRequest)
    (hs : Dict.lookup (discovery_merged_fields env field_dictionary)
      "estatus" = some (Value.str "ongoing invitation_only"))
    (hok : course_discovery_request env search_term size from_
      field_dictionary clock = Except.ok req) :
    Dict.lookup req.field_dictionary "invitation_only" =
      some (Value.bool true) ∧
    Dict.lookup req.field_dictionary "start" =
      Dict.lookup (discovery_merged_fields env field_dictionary) "start" ∧
    Dict.lookup req.field_dictionary "end" =
      Dict.lookup (discovery_merged_fields env field_dictionary) "end" := by
  have hinv := invitation_condition_of_token "ongoing invitation_only"
    (Or.inr (by decide))
  have happ := apply_status_of_present
    (discovery_merged_fields env field_dictionary)
    (env.generate_field_filters none none).exclude_dictionary (clock 0)
    (Value.str "ongoing invitation_only") true hs hinv
  simp only [if_true] at happ
  rw [status_dates_other _ _ _ (by decide) (by decide) (by decide)] at happ
  have hr := request_after_status env search_term size from_ field_dictionary
    clock _ _ req happ hok
  refine ⟨?_, ?_, ?_⟩
  · rw [hr.2 "invitation_only" (by decide)]
    exact Dict.lookup_insert_self _ _ _
  · rw [hr.2 "start" (by decide), Dict.lookup_insert_ne _ _ (by decide)]
    exact Dict.lookup_erase_ne _ (by decide)
  · rw [hr.2 "end" (by decide), Dict.lookup_insert_ne _ _ (by decide)]
    exact Dict.lookup_erase_ne _ (by decide)

/-- C1 witness: the amended claim at the concrete counterexample input. -/
theorem course_discovery_combined_status_witness :
    Dict.lookup
      ((course_discovery_request env0 (some "math") 20 0 (some fdC1)
          clock0).toOption.getD (mk_request none 0 0 [] 0 [] {})).field_dictionary
      "invitation_only" = some (Value.bool true) :=
  (course_discovery_combined_status env0 (some "math") 20 0 (some fdC1)
    clock0
    ((course_discovery_request env0 (some "math") 20 0 (some fdC1)
        clock0).toOption.getD (mk_request none 0 0 [] 0 [] {}))
    (by decide) (by rfl)).1

/-- C3 counterexample: with enrollment-start filtering disabled, a caller
override carrying an `enrollment_start` key still reaches the engine, so
the field dictionary is not `enrollment_start`-free for every call. -/
theorem course_discovery_enrollment_start_cex :
    envSkip.settings.SEARCH_SKIP_ENROLLMENT_START_DATE_FILTERING = true ∧
    ∃ req, course_discovery_request envSkip (some "math") 20 0 (some fdC3)
        clock0 = Except.ok req ∧
      Dict.lookup req.field_dictionary "enrollment_start" =
        some (Value.str "2030-01-01") := by
  refine ⟨rfl,
    (course_discovery_request envSkip (some "math") 20 0 (some fdC3)
      clock0).toOption.getD (mk_request none 0 0 [] 0 [] {}),
    by rfl, by decide⟩

/-- C3 (amended): when the enrollment-start-filtering flag is disabled the
code never ADDS an `enrollment_start` key — the engine sees exactly the
merged caller dictionary's entry for that key (absent whenever the caller
supplied none); when the flag is enabled (the default), the engine field
dictionary always contains `enrollment_start = DateRange(None, now)`. -/
theorem course_discovery_enrollment_start (env : Env)
    (search_term : Option String) (size from_ : Nat)
    (field_dictionary : Option Dict) (clock : Nat → Time)
    (req : DiscoveryRequest)
    (hok : course_discovery_request env search_term size from_
      field_dictionary clock = Except.ok req) :
    (env.settings.SEARCH_SKIP_ENROLLMENT_START_DATE_FILTERING = true →
      Dict.lookup req.field_dictionary "enrollment_start" =
        Dict.lookup (discovery_merged_fields env field_dictionary)
          "enrollment_start") ∧
    (env.settings.SEARCH_SKIP_ENROLLMENT_START_DATE_FILTERING = false →
      Dict.lookup req.field_dictionary "enrollment_start" =
        some (Value.dateRange ⟨none, some (clock 1)⟩)) := by
  cases happ : apply_status (discovery_merged_fields env field_dictionary)
      (env.generate_field_filters none none).exclude_dictionary (clock 0) with
  | error e =>
      simp only [course_discovery_request, happ] at hok
      exact Except.noConfusion hok
  | ok p =>
      obtain ⟨u1, ex1⟩ := p
      have hreq := course_discovery_request_of_status env search_term size
        from_ field_dictionary clock u1 ex1 happ
      rw [hreq] at hok
      constructor
      · intro hsk
        rw [if_pos hsk] at hok
        injection hok with hok
        subst hok
        show Dict.lookup u1 "enrollment_start" =
          Dict.lookup (discovery_merged_fields env field_dictionary)
            "enrollment_start"
        exact apply_status_preserves _ _ _ _ _ _ (by decide) (by decide)
          (by decide) (by decide) happ
      · intro hsk
        rw [if_neg (by simp [hsk])] at hok
        injection hok with hok
        subst hok
        exact Dict.lookup_insert_self _ _ _

/-- C3 witness: with the default settings (flag enabled) the engine field
dictionary carries the `enrollment_start` constraint. -/
theorem course_discovery_enrollment_start_witness :
    Dict.lookup
      ((course_discovery_request env0 (some "math") 20 0 none
          clock0).toOption.getD (mk_request none 0 0 [] 0 [] {})).field_dictionary
      "enrollment_start" = some (Value.dateRange ⟨none, some (clock0 1)⟩) :=
  (course_discovery_enrollment_start env0 (some "math") 20 0 none clock0
    ((course_discovery_request env0 (some "math") 20 0 none
        clock0).toOption.getD (mk_request none 0 0 [] 0 [] {}))
    (by rfl)).2 rfl

/-- C10: one discovery call samples the wall clock at up to three separate
sites — before status derivation, for the `enrollment_start` field, and for
the `enrollment_end` filter — so the call is deterministic in the first
three clock samples jointly, and under the default flag the three
DateRanges passed to the engine carry the three (not necessarily equal)
samples. -/
theorem course_discovery_clock_samples (env : Env)
    (search_term : Option String) (size from_ : Nat)
    (field_dictionary : Option Dict) (clock clockAlt : Nat → Time) :
    (clock 0 = clockAlt 0 → clock 1 = clockAlt 1 → clock 2 = clockAlt 2 →
      course_discovery_request env search_term size from_ field_dictionary
          clock =
        course_discovery_request env search_term size from_ field_dictionary
          clockAlt ∧
      course_discovery_search env search_term size from_ field_dictionary
          clock =
        course_discovery_search env search_term size from_ field_dictionary
          clockAlt) ∧
    (env.settings.SEARCH_SKIP_ENROLLMENT_START_DATE_FILTERING = false →
      Dict.lookup (discovery_merged_fields env field_dictionary) "estatus" =
        some (Value.str "ongoing") →
      ∀ req, course_discovery_request env search_term size from_
          field_dictionary clock = Except.ok req →
        Dict.lookup req.field_dictionary "start" =
          some (Value.dateRange ⟨none, some (clock 0)⟩) ∧
        Dict.lookup req.field_dictionary "enrollment_start" =
          some (Value.dateRange ⟨none, some (clock 1)⟩) ∧
        Dict.lookup req.filter_dictionary "enrollment_end" =
          some (Value.dateRange ⟨some (clock 2), none⟩)) := by
  constructor
  · intro h0 h1 h2
    have hreq : course_discovery_request env search_term size from_
        field_dictionary clock =
        course_discovery_request env search_term size from_ field_dictionary
          clockAlt := by
      simp only [course_discovery_request, h0, h1, h2]
    exact ⟨hreq, by simp only [course_discovery_search, hreq]⟩
  · intro hskf hs req hok
    have hinv := invitation_condition_of_no_token "ongoing" (by decide)
    have happ := apply_status_of_present
      (discovery_merged_fields env field_dictionary)
      (env.generate_field_filters none none).exclude_dictionary (clock 0)
      (Value.str "ongoing") false hs hinv
    simp only [Bool.false_eq_true, if_false, status_dates_ongoing] at happ
    rw [course_discovery_request_of_status env search_term size from_
      field_dictionary clock _ _ happ, if_neg (by simp [hskf])] at hok
    injection hok with hok
    subst hok
    refine ⟨?_, ?_, ?_⟩
    · simp [mk_request, Dict.lookup_insert_self, Dict.lookup_insert_ne]
    · simp [mk_request, Dict.lookup_insert_self]
    · rfl

/-- C10 witness: two clocks agreeing on samples 0-2 give identical calls,
and the `enrollment_end` filter carries the third sample. -/
theorem course_discovery_clock_samples_witness :
    course_discovery_request env0 (some "math") 20 0 (some fdC7) clock0 =
      course_discovery_request env0 (some "math") 20 0 (some fdC7) clockB ∧
    Dict.lookup
      ((course_discovery_request env0 (some "math") 20 0 (some fdC7)
          clock0).toOption.getD (mk_request none 0 0 [] 0 [] {})).filter_dictionary
      "enrollment_end" = some (Value.dateRange ⟨some (clock0 2), none⟩) := by
  have h := course_discovery_clock_samples env0 (some "math") 20 0
    (some fdC7) clock0 clockB
  exact ⟨(h.1 (by decide) (by decide) (by decide)).1,
    (h.2 rfl (by decide) _ (by rfl)).2.2⟩
